import Mathlib

/-!
Verification of the WRM-Systems water-meter integration core: reading
validation, the historical store's merge/retention engine, the HTTP retry
loop, and the usage aggregation, shallowly embedded from
`custom_components/wrm_systems/{coordinator,api,const}.py`.

Numbers: Python ints are `ℤ`, Python floats are `ℚ`, epoch times are integer
seconds passed explicitly as a `now : ℤ` parameter (the code reads
`datetime.now(timezone.utc).timestamp()`).  Python's stable `list.sort` is
modelled by `List.insertionSort`, which is extensionally equal to every
stable sort for a total preorder key.
-/

/-- A raw JSON/stored field value as the Python code distinguishes them by
`isinstance`: an int, a float, a string (carrying its parsed numeric value
when `float(s)` would succeed), or any other type. -/
inductive RawVal where
  | rint : ℤ → RawVal
  | rfloat : ℚ → RawVal
  | rstr : Option ℚ → RawVal
  | rother : RawVal
deriving DecidableEq

/-- Python `int(x)` on a float: truncation toward zero.  On a reduced
fraction this is t-division of the numerator by the denominator. -/
def truncQ (q : ℚ) : ℤ := q.num.tdiv q.den

/-- Python `float(x)` applied to a raw value; `none` means
`ValueError`/`TypeError`. -/
def pyFloat : RawVal → Option ℚ
  | .rint n => some (n : ℚ)
  | .rfloat q => some q
  | .rstr (some q) => some q
  | .rstr none => none
  | .rother => none

/-- Python `int(x)` applied to a raw value; `int` of a non-integer numeric
string raises `ValueError`, so only den-1 strings convert. -/
def pyInt : RawVal → Option ℤ
  | .rint n => some n
  | .rfloat q => some (truncQ q)
  | .rstr (some q) => if q.den = 1 then some q.num else none
  | .rstr none => none
  | .rother => none

/-- "The field parses as a number": `float()` semantics on a possibly
missing field.  Used to state the spec's validator contract. -/
def parseNumber : Option RawVal → Option ℚ
  | none => none
  | some v => pyFloat v

/-- The range test at the end of `_safe_convert_timestamp`:
reject when older than 90 days or in the future, then require positivity. -/
def tsCheck (now ts : ℤ) : Option ℤ :=
  if ts < now - 90 * 24 * 3600 ∨ now < ts then none
  else if 0 < ts then some ts else none

/-- `_safe_convert_timestamp` (coordinator.py): strings go through
`int(float(s))`, ints are kept, floats are truncated via `int(...)`; other
types and unparsable strings yield `None`; then the range check runs. -/
def safe_convert_timestamp (now : ℤ) (v : Option RawVal) : Option ℤ :=
  match v with
  | some (.rstr (some q)) => tsCheck now (truncQ q)
  | some (.rstr none) => none
  | some (.rint n) => tsCheck now n
  | some (.rfloat q) => tsCheck now (truncQ q)
  | some .rother => none
  | none => none

/-- `_safe_convert_value` (coordinator.py): `float()` conversion then the
range check `0 ≤ value ≤ 999999`. -/
def safe_convert_value (v : Option RawVal) : Option ℚ :=
  match v with
  | some (.rstr (some q)) => if q < 0 ∨ 999999 < q then none else some q
  | some (.rstr none) => none
  | some (.rint n) => if (n : ℚ) < 0 ∨ 999999 < (n : ℚ) then none else some (n : ℚ)
  | some (.rfloat q) => if q < 0 ∨ 999999 < q then none else some q
  | some .rother => none
  | none => none

/-- A raw reading dict from the API or storage: `.get("timestamp")`,
`.get("value")` and `.get("unit")` may each be absent. -/
structure RawReading where
  timestamp : Option RawVal
  value : Option RawVal
  unit : Option String := none
deriving DecidableEq

/-- A canonical validated reading `{timestamp, value}`. -/
structure Reading where
  timestamp : ℤ
  value : ℚ
deriving DecidableEq, Inhabited

/-- `_validate_reading_data` (coordinator.py): both conversions must
succeed. -/
def validate_reading_data (now : ℤ) (r : RawReading) : Option Reading :=
  match safe_convert_timestamp now r.timestamp, safe_convert_value r.value with
  | some ts, some q => some ⟨ts, q⟩
  | _, _ => none

/-- Sort key used everywhere: ascending timestamp. -/
def tsLE (a b : Reading) : Prop := a.timestamp ≤ b.timestamp

instance : DecidableRel tsLE := fun a b => Int.decLe a.timestamp b.timestamp

instance : IsTrans Reading tsLE := ⟨fun _ _ _ h₁ h₂ => le_trans h₁ h₂⟩

instance : IsTotal Reading tsLE := ⟨fun a b => le_total a.timestamp b.timestamp⟩

/-- The coordinator's historical store: the readings list plus the cached
`last_reading_timestamp`. -/
structure StoreState where
  readings : List Reading
  lastTs : Option ℤ
deriving DecidableEq

/-- Membership test against the `existing_timestamps` set. -/
def hasTs (l : List Reading) (t : ℤ) : Bool :=
  l.any fun e => decide (e.timestamp = t)

/-- The validate-and-filter loop of `_update_historical_data`: keep a batch
reading when it validates and its timestamp is not among the existing
store timestamps (the set is built once, before the loop). -/
def validNewReadings (now : ℤ) (existing : List Reading) (batch : List RawReading) :
    List Reading :=
  batch.filterMap fun raw =>
    match validate_reading_data now raw with
    | some v => if hasTs existing v.timestamp then none else some v
    | none => none

/-- `_update_historical_data` (coordinator.py): validate/filter the batch,
append, stable-sort by timestamp, apply the retention filter unless
`historical_days == -1`, update `last_reading_timestamp` from the tail,
and save.  The boolean reports whether `store.async_save` ran. -/
def updateHistoricalData (historicalDays now : ℤ) (s : StoreState)
    (batch : List RawReading) : StoreState × Bool :=
  if batch.isEmpty then (s, false)
  else
    let validNew := validNewReadings now s.readings batch
    if validNew.isEmpty then (s, false)
    else
      let combined := List.insertionSort tsLE (s.readings ++ validNew)
      let recent :=
        if historicalDays ≠ -1 then
          combined.filter fun r => decide (now - historicalDays * 86400 ≤ r.timestamp)
        else combined
      let newLast : Option ℤ :=
        match recent.getLast? with
        | some r => some r.timestamp
        | none => s.lastTs
      ({ readings := recent, lastTs := newLast }, true)

/-- `_periodic_storage_cleanup` (coordinator.py): skipped for unlimited
retention; otherwise drop readings older than the cutoff, sort, and save
only when the length changed. -/
def periodic_storage_cleanup (historicalDays now : ℤ) (s : StoreState) :
    StoreState × Bool :=
  if historicalDays = -1 then (s, false)
  else if 0 < historicalDays then
    let recent := List.insertionSort tsLE
      (s.readings.filter fun r => decide (now - historicalDays * 86400 ≤ r.timestamp))
    if recent.length ≠ s.readings.length then
      ({ readings := recent,
         lastTs :=
           match recent.getLast? with
           | some r => some r.timestamp
           | none => s.lastTs }, true)
    else (s, false)
  else (s, false)

/-! ## API client retry loop (`api.py`) -/

/-- `MAX_RETRIES` (const.py). -/
def MAX_RETRIES : ℕ := 3

/-- `RETRY_DELAY` (const.py), seconds. -/
def RETRY_DELAY : ℕ := 2

/-- What one HTTP attempt observes: a status code (with whether a 200 body
decodes as JSON) or a transient failure
(`aiohttp.ClientError` / `asyncio.TimeoutError`). -/
inductive AttemptOutcome where
  | status : ℕ → Bool → AttemptOutcome
  | netError : AttemptOutcome
deriving DecidableEq

/-- How `_make_request_with_retry` terminates. -/
inductive ReqResult where
  | ok : ReqResult
  | invalidAuth : ReqResult
  | apiError : ReqResult
deriving DecidableEq

/-- Result of the retry loop: outcome, number of attempts performed, and
the backoff sleeps (`RETRY_DELAY * 2 ** attempt`) performed, in order. -/
structure RetryResult where
  result : ReqResult
  attempts : ℕ
  waits : List ℕ
deriving DecidableEq

/-- The body of `for attempt in range(MAX_RETRIES)` in
`_make_request_with_retry` (api.py): 401 raises `InvalidAuth` at once; 429
sleeps `RETRY_DELAY * 2 ** attempt` and continues; any other non-200, or a
200 with an undecodable body, raises `APIError` without retrying; a network
error sleeps and continues unless this was the final attempt; an exhausted
loop raises `APIError`.  `fuel` is the number of loop iterations left. -/
def retryGo (responses : ℕ → AttemptOutcome) : ℕ → ℕ → RetryResult
  | attempt, 0 => ⟨.apiError, attempt, []⟩
  | attempt, fuel + 1 =>
    match responses attempt with
    | .status code jsonOk =>
        if code = 401 then ⟨.invalidAuth, attempt + 1, []⟩
        else if code = 429 then
          let rest := retryGo responses (attempt + 1) fuel
          ⟨rest.result, rest.attempts, RETRY_DELAY * 2 ^ attempt :: rest.waits⟩
        else if code ≠ 200 then ⟨.apiError, attempt + 1, []⟩
        else if jsonOk then ⟨.ok, attempt + 1, []⟩
        else ⟨.apiError, attempt + 1, []⟩
    | .netError =>
        if fuel = 0 then ⟨.apiError, attempt + 1, []⟩
        else
          let rest := retryGo responses (attempt + 1) fuel
          ⟨rest.result, rest.attempts, RETRY_DELAY * 2 ^ attempt :: rest.waits⟩

/-- `_make_request_with_retry` against a given sequence of per-attempt
outcomes and a retry ceiling. -/
def makeRequestWithRetry (responses : ℕ → AttemptOutcome) (maxRetries : ℕ) :
    RetryResult :=
  retryGo responses 0 maxRetries

/-! ## Usage computation (`api.py` / `coordinator.py`) -/

/-- One entry of `calculate_usage_from_readings`' output. -/
structure UsageWindow where
  start_timestamp : ℤ
  end_timestamp : ℤ
  start_value : ℚ
  end_value : ℚ
  usage : ℚ
  duration_hours : ℚ
  unit : String
deriving DecidableEq

/-- The per-reading checks inside `calculate_usage_from_readings`: both
keys present, `float(value)` and `int(timestamp)` both succeed. -/
def parseUsageReading (r : RawReading) : Option (ℤ × ℚ) :=
  match r.timestamp, r.value with
  | some tsv, some vv =>
    match pyFloat vv, pyInt tsv with
    | some q, some t => some (t, q)
    | _, _ => none
  | _, _ => none

/-- One iteration of `calculate_usage_from_readings`' loop over a
consecutive pair: skip if either reading fails its checks or the time
difference is non-positive. -/
def usagePair (prev curr : RawReading) : Option UsageWindow :=
  match parseUsageReading prev, parseUsageReading curr with
  | some (pt, pv), some (ct, cv) =>
    let timeDiff : ℚ := ((ct : ℚ) - (pt : ℚ)) / 3600
    if timeDiff ≤ 0 then none
    else some ⟨pt, ct, pv, cv, max 0 (cv - pv), timeDiff, curr.unit.getD ""⟩
  | _, _ => none

/-- `calculate_usage_from_readings` (api.py): windows between consecutive
readings only. -/
def calculate_usage_from_readings (readings : List RawReading) : List UsageWindow :=
  if readings.length < 2 then []
  else (readings.zip readings.tail).filterMap fun pc => usagePair pc.1 pc.2

/-- Stored readings re-enter `_validate_reading_data` as an int timestamp
and a float value. -/
def revalidate (now : ℤ) (r : Reading) : Option Reading :=
  validate_reading_data now ⟨some (.rint r.timestamp), some (.rfloat r.value), none⟩

/-- `_calculate_usage_for_period` (coordinator.py). -/
def calculate_usage_for_period (now : ℤ) (readings : List Reading) : ℚ :=
  if readings.length < 2 then 0
  else
    let valid := readings.filterMap (revalidate now)
    if valid.length < 2 then 0
    else
      let sortedV := List.insertionSort tsLE valid
      max 0 (sortedV.getLastI.value - sortedV.headI.value)

/-- `_calculate_average_hourly_usage` (coordinator.py): readings within the
lookback window, else the last 10; rate over the elapsed span. -/
def calculate_average_hourly_usage (maxDataAgeHours now : ℤ)
    (readings : List Reading) : ℚ :=
  if readings.length < 2 then 0
  else
    let valid := readings.filterMap (revalidate now)
    if valid.length < 2 then 0
    else
      let sortedV := List.insertionSort tsLE valid
      let recent := sortedV.filter fun r =>
        decide (now - maxDataAgeHours * 3600 ≤ r.timestamp)
      let recent := if recent.length < 2 then sortedV.drop (sortedV.length - 10) else recent
      if recent.length < 2 then 0
      else
        let first := recent.headI
        let last := recent.getLastI
        let span : ℚ := ((last.timestamp : ℚ) - (first.timestamp : ℚ)) / 3600
        if span ≤ 0 then 0
        else max 0 ((last.value - first.value) / span)

/-- A value in the metrics dict returned by `_calculate_usage_metrics`. -/
inductive MetricVal where
  | num : ℚ → MetricVal
  | reading : Reading → MetricVal
deriving DecidableEq

/-- `_calculate_usage_metrics` (coordinator.py), as the association list it
returns.  Local-timezone period starts (`start_of_day`, `start_of_month`)
are passed in, as the code derives them from the host's timezone. -/
def calculate_usage_metrics (maxDataAgeHours now startOfDay startOfMonth : ℤ)
    (readings : List Reading) : List (String × MetricVal) :=
  if readings.length < 2 then
    [("hourly_usage", .num 0), ("daily_usage", .num 0), ("weekly_usage", .num 0)]
  else
    let latest := readings.tail.foldl
      (fun best r => if best.timestamp < r.timestamp then r else best) readings.headI
    let hourly := calculate_average_hourly_usage maxDataAgeHours now readings
    let daily := calculate_usage_for_period now
      (readings.filter fun r => decide (startOfDay ≤ r.timestamp))
    let weekly := calculate_usage_for_period now
      (readings.filter fun r => decide (now - 7 * 24 * 3600 ≤ r.timestamp))
    let monthly := calculate_usage_for_period now
      (readings.filter fun r => decide (startOfMonth ≤ r.timestamp))
    let dataAge : ℚ :=
      if latest.timestamp ≠ 0 then ((now : ℚ) - (latest.timestamp : ℚ)) / 3600 else 0
    [("hourly_usage", .num hourly), ("daily_usage", .num daily),
     ("weekly_usage", .num weekly), ("monthly_usage", .num monthly),
     ("latest_reading", .reading latest), ("data_age_hours", .num dataAge)]

/-- The validator contract exactly as the specification words it: the value
parses as a number in `[0, 999999]` and the timestamp parses as a number
`t` with `now - 90d ≤ t ≤ now`. -/
def c6SpecAccepts (now : ℤ) (r : RawReading) : Prop :=
  (∃ q, parseNumber r.value = some q ∧ 0 ≤ q ∧ q ≤ 999999) ∧
  (∃ t, parseNumber r.timestamp = some t ∧
    (now : ℚ) - 90 * 24 * 3600 ≤ t ∧ t ≤ (now : ℚ))

/-! ## Concrete response sequences used by scenario theorems -/

/-- Three transient failures, then every later attempt returns a valid 200. -/
def timeoutsThen200 : ℕ → AttemptOutcome :=
  fun i => if i < 3 then .netError else .status 200 true

/-- 429 on the first three attempts, a valid 200 from the fourth on. -/
def rateLimitedThen200 : ℕ → AttemptOutcome :=
  fun i => if i < 3 then .status 429 true else .status 200 true

/-- A single 429, then a valid 200. -/
def oneRateLimitThen200 : ℕ → AttemptOutcome :=
  fun i => if i = 0 then .status 429 true else .status 200 true

/-- A transient failure, then a 401. -/
def netErrorThen401 : ℕ → AttemptOutcome :=
  fun i => if i = 0 then .netError else .status 401 true

/-! ## Theorems -/

/-- Claim C1 (code bug): merging the raw batch
`[(1000,10.0),(1000,10.0),(2000,12.0)]` into an empty store with unlimited
retention (at a `now` for which these timestamps are in the validity
window) stores THREE readings: the dedup filter tests timestamps only
against the pre-existing store, so the batch-internal duplicate of
timestamp 1000 is kept twice, violating the claimed final set
`[(1000,10.0),(2000,12.0)]` and the spec's uniqueness invariant. -/
theorem c1_intrabatch_duplicate_kept :
    updateHistoricalData (-1) 2000 ⟨[], none⟩
      [⟨some (.rint 1000), some (.rfloat 10), none⟩,
       ⟨some (.rint 1000), some (.rfloat 10), none⟩,
       ⟨some (.rint 2000), some (.rfloat 12), none⟩] =
    (⟨[⟨1000, 10⟩, ⟨1000, 10⟩, ⟨2000, 12⟩], some 2000⟩, true) := by decide

/-- Claim C4: with retry ceiling `MAX_RETRIES = 3`, a request whose first
three attempts time out fails as APIError after exactly 3 attempts and
never makes a fourth, even though the fourth would return 200; with
ceiling 4 the same sequence succeeds on the fourth attempt. -/
theorem c4_retry_ceiling_exhaustion :
    (makeRequestWithRetry timeoutsThen200 MAX_RETRIES).result = .apiError ∧
    (makeRequestWithRetry timeoutsThen200 MAX_RETRIES).attempts = 3 ∧
    (makeRequestWithRetry timeoutsThen200 4).result = .ok ∧
    (makeRequestWithRetry timeoutsThen200 4).attempts = 4 := by decide

/-- Claim C8 (amended): with fewer than 2 readings,
`_calculate_usage_metrics` returns a dict holding exactly
`hourly_usage`, `daily_usage` and `weekly_usage`, all zero; the
`monthly_usage`, `latest_reading` and `data_age_hours` keys of the full
contract are absent. -/
theorem c8_under_two_readings (maxDataAgeHours now startOfDay startOfMonth : ℤ)
    (readings : List Reading) (h : readings.length < 2) :
    calculate_usage_metrics maxDataAgeHours now startOfDay startOfMonth readings =
      [("hourly_usage", .num 0), ("daily_usage", .num 0), ("weekly_usage", .num 0)] ∧
    (calculate_usage_metrics maxDataAgeHours now startOfDay startOfMonth
        readings).lookup "monthly_usage" = none ∧
    (calculate_usage_metrics maxDataAgeHours now startOfDay startOfMonth
        readings).lookup "data_age_hours" = none := by
  have he : calculate_usage_metrics maxDataAgeHours now startOfDay startOfMonth readings =
      [("hourly_usage", .num 0), ("daily_usage", .num 0), ("weekly_usage", .num 0)] := by
    unfold calculate_usage_metrics
    rw [if_pos h]
  refine ⟨he, ?_, ?_⟩ <;> rw [he] <;> rfl

/-- Witness for C8's amended claim at a one-reading store. -/
theorem c8_witness :
    calculate_usage_metrics 48 2000 1500 1200 [⟨1000, 5⟩] =
      [("hourly_usage", .num 0), ("daily_usage", .num 0), ("weekly_usage", .num 0)] ∧
    (calculate_usage_metrics 48 2000 1500 1200 [⟨1000, 5⟩]).lookup "monthly_usage" = none ∧
    (calculate_usage_metrics 48 2000 1500 1200 [⟨1000, 5⟩]).lookup "data_age_hours" = none :=
  c8_under_two_readings 48 2000 1500 1200 [⟨1000, 5⟩] (by decide)

/-- Counterexample to claim C8 as stated: for a one-reading store the
returned metrics do NOT contain a zero `monthly_usage` or a zero
`data_age_hours` — the keys are missing entirely. -/
theorem c8_counterexample :
    (calculate_usage_metrics 48 2000 1500 1200 [⟨1000, 5⟩]).lookup "monthly_usage" = none ∧
    (calculate_usage_metrics 48 2000 1500 1200 [⟨1000, 5⟩]).lookup "data_age_hours" = none := by
  decide

/-- Claim C10: a merge in which every batch reading either fails validation
(`Option.all` is vacuously true) or carries a timestamp already in the
store leaves the store unchanged and performs no save. -/
theorem c10_all_rejected_or_duplicate_noop (historicalDays now : ℤ) (s : StoreState)
    (batch : List RawReading)
    (h : ∀ raw ∈ batch, ((validate_reading_data now raw).all
        fun v => hasTs s.readings v.timestamp) = true) :
    updateHistoricalData historicalDays now s batch = (s, false) := by
  have hvn : validNewReadings now s.readings batch = [] := by
    rw [validNewReadings, List.filterMap_eq_nil_iff]
    intro raw hraw
    have := h raw hraw
    cases hval : validate_reading_data now raw with
    | none => rfl
    | some v =>
      rw [hval] at this
      simp only [Option.all_some] at this
      simp [this]
  by_cases hb : batch.isEmpty
  · simp [updateHistoricalData, hb]
  · simp [updateHistoricalData, hb, hvn]

/-- Witness for C10: a batch of one non-numeric reading and one duplicate
of a stored timestamp changes nothing and saves nothing. -/
theorem c10_witness :
    updateHistoricalData 30 200 ⟨[⟨100, 1⟩], some 100⟩
      [⟨some .rother, some (.rfloat 2), none⟩,
       ⟨some (.rint 100), some (.rfloat 1), none⟩] =
    (⟨[⟨100, 1⟩], some 100⟩, false) :=
  c10_all_rejected_or_duplicate_noop 30 200 ⟨[⟨100, 1⟩], some 100⟩ _ (by decide)

/-- Windows over `mids ++ [w]` when every element of `mids` fails the
per-reading checks: every consecutive pair contains a malformed reading,
so the loop emits nothing. -/
theorem usage_chain_malformed (w : RawReading) :
    ∀ mids : List RawReading, (∀ m ∈ mids, parseUsageReading m = none) →
      ((mids ++ [w]).zip (mids ++ [w]).tail).filterMap
        (fun pc => usagePair pc.1 pc.2) = []
  | [], _ => by simp
  | m :: ms, hm => by
    have hmnone : parseUsageReading m = none := hm m (by simp)
    cases ms with
    | nil =>
      simp [List.zip_cons_cons, usagePair, hmnone]
    | cons m' ms' =>
      have hrest := usage_chain_malformed w (m' :: ms')
        (fun x hx => hm x (List.mem_cons_of_mem m hx))
      simp only [List.cons_append, List.tail_cons, List.zip_cons_cons,
        List.filterMap_cons] at hrest ⊢
      rw [show usagePair m m' = none by simp [usagePair, hmnone]]
      exact hrest

/-- Claim C2 (amended): for a sequence whose first and last readings are
valid and whose middle readings are all malformed,
`calculate_usage_from_readings` returns NO usage window at all: windows
are only ever formed between consecutive readings, and each consecutive
pair here contains a malformed reading, so nothing bridges the two valid
endpoints. -/
theorem c2_malformed_middles_yield_no_window (v w : RawReading)
    (mids : List RawReading)
    (hv : (parseUsageReading v).isSome = true)
    (hw : (parseUsageReading w).isSome = true)
    (hne : mids ≠ [])
    (hm : ∀ m ∈ mids, parseUsageReading m = none) :
    calculate_usage_from_readings (v :: mids ++ [w]) = [] := by
  obtain ⟨m, ms, rfl⟩ : ∃ m ms, mids = m :: ms := by
    cases mids with
    | nil => exact absurd rfl hne
    | cons m ms => exact ⟨m, ms, rfl⟩
  have hmnone : parseUsageReading m = none := hm m (by simp)
  have hlen : ¬ (v :: (m :: ms) ++ [w]).length < 2 := by
    simp [List.length_append]
  rw [calculate_usage_from_readings, if_neg hlen]
  simp only [List.cons_append, List.tail_cons, List.zip_cons_cons,
    List.filterMap_cons]
  rw [show usagePair v m = none by simp [usagePair, hmnone]]
  have := usage_chain_malformed w (m :: ms) hm
  simpa using this

/-- Counterexample to claim C2 as stated: an ascending 30-day sequence
with valid endpoints `(1000, 10.0)` and `(2593000, 25.0)` and one
malformed middle produces the empty list, not a single window spanning
the two valid readings. -/
theorem c2_counterexample :
    calculate_usage_from_readings
      [⟨some (.rint 1000), some (.rfloat 10), none⟩,
       ⟨none, none, none⟩,
       ⟨some (.rint 2593000), some (.rfloat 25), none⟩] = [] := by decide

/-- Witness for C2's amended claim with two malformed middles. -/
theorem c2_witness :
    calculate_usage_from_readings
      (⟨some (.rint 1000), some (.rfloat 10), none⟩ ::
        [⟨none, some (.rfloat 11), none⟩,
         ⟨some (.rint 90000), some .rother, none⟩] ++
        [⟨some (.rint 2593000), some (.rfloat 25), none⟩]) = [] :=
  c2_malformed_middles_yield_no_window
    ⟨some (.rint 1000), some (.rfloat 10), none⟩
    ⟨some (.rint 2593000), some (.rfloat 25), none⟩
    [⟨none, some (.rfloat 11), none⟩, ⟨some (.rint 90000), some .rother, none⟩]
    (by decide) (by decide) (by decide) (by decide)

/-- Unfolding the loop body on a 429 answer: sleep the backoff and loop. -/
theorem retryGo_429_step (responses : ℕ → AttemptOutcome) (a fuel : ℕ) (b : Bool)
    (hb : responses a = .status 429 b) :
    retryGo responses a (fuel + 1) =
      ⟨(retryGo responses (a + 1) fuel).result,
       (retryGo responses (a + 1) fuel).attempts,
       RETRY_DELAY * 2 ^ a :: (retryGo responses (a + 1) fuel).waits⟩ := by
  simp [retryGo, hb]

/-- Unfolding the loop body on a valid 200 answer: return the data. -/
theorem retryGo_200_step (responses : ℕ → AttemptOutcome) (a fuel : ℕ)
    (hb : responses a = .status 200 true) :
    retryGo responses a (fuel + 1) = ⟨.ok, a + 1, []⟩ := by
  rw [retryGo, hb]
  norm_num

/-- Unfolding the loop body on a 401 answer: raise InvalidAuth at once. -/
theorem retryGo_401_step (responses : ℕ → AttemptOutcome) (a fuel : ℕ) (b : Bool)
    (hb : responses a = .status 401 b) :
    retryGo responses a (fuel + 1) = ⟨.invalidAuth, a + 1, []⟩ := by
  simp [retryGo, hb]

/-- Unfolding the loop body on a network error with iterations to spare:
sleep the backoff and loop. -/
theorem retryGo_netError_step (responses : ℕ → AttemptOutcome) (a fuel : ℕ)
    (hb : responses a = .netError) (hf : fuel ≠ 0) :
    retryGo responses a (fuel + 1) =
      ⟨(retryGo responses (a + 1) fuel).result,
       (retryGo responses (a + 1) fuel).attempts,
       RETRY_DELAY * 2 ^ a :: (retryGo responses (a + 1) fuel).waits⟩ := by
  simp [retryGo, hb, hf]

/-- Both `2 ^ attempt` backoff-schedule cons identities used below. -/
theorem backoff_schedule_cons (a fuel : ℕ) :
    (List.range (fuel + 1)).map (fun i => RETRY_DELAY * 2 ^ (a + i)) =
      RETRY_DELAY * 2 ^ a ::
        (List.range fuel).map fun i => RETRY_DELAY * 2 ^ (a + 1 + i) := by
  rw [List.range_succ_eq_map, List.map_cons, List.map_map]
  refine congrArg₂ List.cons (by rw [Nat.add_zero]) (List.map_congr_left ?_)
  intro i _
  simp only [Function.comp_apply]
  congr 2
  omega

/-- If every attempt from `a` to the end of the loop answers 429, the loop
consumes all remaining attempts, sleeps the exponential-backoff schedule,
and fails as APIError. -/
theorem retryGo_all429 (responses : ℕ → AttemptOutcome) :
    ∀ (fuel a : ℕ), (∀ j, a ≤ j → j < a + fuel → ∃ b, responses j = .status 429 b) →
      retryGo responses a fuel =
        ⟨.apiError, a + fuel, (List.range fuel).map fun i => RETRY_DELAY * 2 ^ (a + i)⟩
  | 0, a, _ => by simp [retryGo]
  | fuel + 1, a, h => by
    obtain ⟨b, hb⟩ := h a le_rfl (by omega)
    have ih := retryGo_all429 responses fuel (a + 1)
      (fun j hj1 hj2 => h j (by omega) (by omega))
    rw [retryGo_429_step responses a fuel b hb, ih, backoff_schedule_cons]
    exact congrArg₂ (RetryResult.mk .apiError)
      (show a + 1 + fuel = a + (fuel + 1) by omega) rfl

/-- If attempts `a..k-1` answer 429 and attempt `k` answers a valid 200
within the remaining ceiling, the loop succeeds on attempt `k`, having
slept the backoff schedule for the 429s. -/
theorem retryGo_429_then_ok (responses : ℕ → AttemptOutcome) :
    ∀ (fuel a k : ℕ), a ≤ k → k < a + fuel →
      (∀ j, a ≤ j → j < k → ∃ b, responses j = .status 429 b) →
      responses k = .status 200 true →
      retryGo responses a fuel =
        ⟨.ok, k + 1, (List.range (k - a)).map fun i => RETRY_DELAY * 2 ^ (a + i)⟩
  | 0, a, k, hak, hk, _, _ => absurd hk (by omega)
  | fuel + 1, a, k, hak, hk, h429, h200 => by
    rcases Nat.eq_or_lt_of_le hak with rfl | hlt
    · rw [retryGo_200_step responses a fuel h200]
      simp
    · obtain ⟨b, hb⟩ := h429 a le_rfl hlt
      have ih := retryGo_429_then_ok responses fuel (a + 1) k (by omega) (by omega)
        (fun j hj1 hj2 => h429 j (by omega) hj2) h200
      rw [retryGo_429_step responses a fuel b hb, ih]
      have hka : k - a = (k - (a + 1)) + 1 := by omega
      rw [hka, backoff_schedule_cons]

/-- Claim C3 (amended): a 429 answer makes the client sleep the
exponential-backoff schedule (`RETRY_DELAY * 2 ** attempt`) and retry, but
it DOES consume an attempt toward the retry ceiling: a request answered
429 on every one of its `n` permitted attempts fails as APIError after
exactly `n` attempts — even if the next attempt would have returned 200 —
while a valid 200 on some attempt `k < n` after 429s succeeds on attempt
`k + 1`. -/
theorem c3_429_consumes_attempts (n : ℕ) (responses : ℕ → AttemptOutcome) :
    ((∀ j, j < n → ∃ b, responses j = .status 429 b) →
      makeRequestWithRetry responses n =
        ⟨.apiError, n, (List.range n).map fun i => RETRY_DELAY * 2 ^ i⟩) ∧
    (∀ k, k < n → (∀ j, j < k → ∃ b, responses j = .status 429 b) →
      responses k = .status 200 true →
      makeRequestWithRetry responses n =
        ⟨.ok, k + 1, (List.range k).map fun i => RETRY_DELAY * 2 ^ i⟩) := by
  constructor
  · intro h
    have := retryGo_all429 responses n 0 (fun j _ hj2 => h j (by omega))
    simpa [makeRequestWithRetry] using this
  · intro k hk h429 h200
    have := retryGo_429_then_ok responses n 0 k (by omega) (by omega)
      (fun j _ hj2 => h429 j hj2) h200
    simpa [makeRequestWithRetry] using this

/-- Counterexample to claim C3 as stated: a request answered 429 on each
of its first `MAX_RETRIES = 3` attempts and 200 thereafter does NOT
succeed — it fails as APIError after consuming all 3 attempts. -/
theorem c3_counterexample :
    (makeRequestWithRetry rateLimitedThen200 MAX_RETRIES).result = .apiError ∧
    (makeRequestWithRetry rateLimitedThen200 MAX_RETRIES).attempts = 3 ∧
    (makeRequestWithRetry rateLimitedThen200 4).result = .ok := by decide

/-- Witness for C3's amended claim: all-429 exhaustion at the ceiling, and
success after a single 429. -/
theorem c3_witness :
    makeRequestWithRetry rateLimitedThen200 MAX_RETRIES =
      ⟨.apiError, MAX_RETRIES, (List.range MAX_RETRIES).map fun i => RETRY_DELAY * 2 ^ i⟩ ∧
    makeRequestWithRetry oneRateLimitThen200 MAX_RETRIES =
      ⟨.ok, 1 + 1, (List.range 1).map fun i => RETRY_DELAY * 2 ^ i⟩ := by
  constructor
  · exact (c3_429_consumes_attempts MAX_RETRIES rateLimitedThen200).1
      (fun j hj => ⟨true, by simp [rateLimitedThen200, show j < 3 from hj]⟩)
  · exact (c3_429_consumes_attempts MAX_RETRIES oneRateLimitThen200).2 1
      (by decide) (fun j hj => ⟨true, by interval_cases j <;> decide⟩) (by decide)

/-- If attempts `a..i-1` answer 429 or a retryable network error and
attempt `i` answers 401, the loop raises InvalidAuth right after attempt
`i`, performing no further attempts. -/
theorem retryGo_401_immediate (responses : ℕ → AttemptOutcome) :
    ∀ (fuel a i : ℕ) (b : Bool), a ≤ i → i < a + fuel →
      (∀ j, a ≤ j → j < i →
        (∃ c, responses j = .status 429 c) ∨ responses j = .netError) →
      responses i = .status 401 b →
      (retryGo responses a fuel).result = .invalidAuth ∧
      (retryGo responses a fuel).attempts = i + 1
  | 0, a, i, b, hai, hi, _, _ => absurd hi (by omega)
  | fuel + 1, a, i, b, hai, hi, hpre, h401 => by
    rcases Nat.eq_or_lt_of_le hai with rfl | hlt
    · rw [retryGo_401_step responses a fuel b h401]
      exact ⟨rfl, rfl⟩
    · have ih := retryGo_401_immediate responses fuel (a + 1) i b (by omega) (by omega)
        (fun j hj1 hj2 => hpre j (by omega) hj2) h401
      rcases hpre a le_rfl hlt with ⟨c, hc⟩ | hn
      · rw [retryGo_429_step responses a fuel c hc]
        exact ih
      · have hf : fuel ≠ 0 := by omega
        rw [retryGo_netError_step responses a fuel hn hf]
        exact ih

/-- Claim C5: whenever some attempt of a request is answered 401 (all
earlier attempts having been the retried kinds, 429 or network error),
the client raises InvalidAuth immediately: the attempt count stops at
`i + 1`, so zero further attempts are performed. -/
theorem c5_401_never_retried (n i : ℕ) (responses : ℕ → AttemptOutcome) (b : Bool)
    (hi : i < n)
    (hpre : ∀ j, j < i → (∃ c, responses j = .status 429 c) ∨ responses j = .netError)
    (h401 : responses i = .status 401 b) :
    (makeRequestWithRetry responses n).result = .invalidAuth ∧
    (makeRequestWithRetry responses n).attempts = i + 1 :=
  retryGo_401_immediate responses n 0 i b (by omega) (by omega)
    (fun j _ hj2 => hpre j hj2) h401

/-- Witness for C5: a network error then a 401, under ceiling
`MAX_RETRIES`: InvalidAuth after exactly 2 attempts. -/
theorem c5_witness :
    (makeRequestWithRetry netErrorThen401 MAX_RETRIES).result = .invalidAuth ∧
    (makeRequestWithRetry netErrorThen401 MAX_RETRIES).attempts = 1 + 1 :=
  c5_401_never_retried MAX_RETRIES 1 netErrorThen401 true (by decide)
    (fun j hj => .inr (by interval_cases j <;> decide)) (by decide)

/-- Python `int()` of an integer-valued rational is the integer itself. -/
theorem truncQ_intCast (n : ℤ) : truncQ (n : ℚ) = n := by
  rw [truncQ, Rat.num_intCast, Rat.den_intCast]
  simp [Int.tdiv_one]

/-- Characterization of the validator's timestamp range test. -/
theorem tsCheck_eq_some (now x ts : ℤ) :
    tsCheck now x = some ts ↔ ts = x ∧ now - 7776000 ≤ x ∧ x ≤ now ∧ 0 < x := by
  unfold tsCheck
  split_ifs with h1 h2 <;> simp <;> omega

/-- Characterization of the value bound test shared by all numeric
branches of `_safe_convert_value`. -/
theorem value_bound_check (x q : ℚ) :
    (if x < 0 ∨ 999999 < x then none else some x) = some q ↔
      x = q ∧ 0 ≤ q ∧ q ≤ 999999 := by
  split_ifs with h
  · constructor
    · intro hc; cases hc
    · rintro ⟨rfl, h1, h2⟩
      exact absurd h (by push_neg; exact ⟨h1, h2⟩)
  · push_neg at h
    constructor
    · intro hc
      injection hc with hc
      exact ⟨hc, hc ▸ h.1, hc ▸ h.2⟩
    · rintro ⟨rfl, _, _⟩; rfl

/-- `_safe_convert_value` accepts exactly the fields that parse as a
number within the sanity bounds, and returns that number. -/
theorem safe_convert_value_eq_some (v : Option RawVal) (q : ℚ) :
    safe_convert_value v = some q ↔
      parseNumber v = some q ∧ 0 ≤ q ∧ q ≤ 999999 := by
  rcases v with _ | (n | x | (_ | y) | _) <;>
    simp [safe_convert_value, parseNumber, pyFloat, value_bound_check] <;>
    (constructor
     · rintro ⟨h1, rfl⟩
       refine ⟨rfl, ?_, h1.2⟩
       exact_mod_cast h1.1
     · rintro ⟨rfl, h1, h2⟩
       refine ⟨⟨?_, h2⟩, rfl⟩
       exact_mod_cast h1)

/-- `_safe_convert_timestamp` accepts exactly the fields that parse as a
number whose truncation-toward-zero lies in `(max 0 (now-90d), now]`, and
returns the truncation. -/
theorem safe_convert_timestamp_eq_some (now : ℤ) (v : Option RawVal) (ts : ℤ) :
    safe_convert_timestamp now v = some ts ↔
      ∃ t, parseNumber v = some t ∧ truncQ t = ts ∧
        now - 7776000 ≤ ts ∧ ts ≤ now ∧ 0 < ts := by
  rcases v with _ | (n | x | (_ | y) | _) <;>
    simp [safe_convert_timestamp, parseNumber, pyFloat, tsCheck_eq_some,
      truncQ_intCast] <;>
    constructor <;> rintro ⟨h1, h2, h3, h4⟩ <;> omega

/-- `_validate_reading_data` succeeds exactly when both conversions do. -/
theorem validate_reading_data_eq_some (now : ℤ) (r : RawReading) (ts : ℤ) (q : ℚ) :
    validate_reading_data now r = some ⟨ts, q⟩ ↔
      safe_convert_timestamp now r.timestamp = some ts ∧
        safe_convert_value r.value = some q := by
  unfold validate_reading_data
  cases hts : safe_convert_timestamp now r.timestamp <;>
    cases hv : safe_convert_value r.value <;> simp [Reading.mk.injEq]

/-- Claim C6 (amended): the validator accepts a raw reading, producing
`{timestamp := ts, value := q}`, if and only if the value parses as a
number `q ∈ [0, 999999]` and the timestamp parses as a number whose
truncation toward zero `ts` satisfies `now - 90d ≤ ts ≤ now` AND `ts > 0`;
the range comparisons are made against the truncated integer, not the
parsed number itself. -/
theorem c6_validator_accepts_iff (now : ℤ) (r : RawReading) (ts : ℤ) (q : ℚ) :
    validate_reading_data now r = some ⟨ts, q⟩ ↔
      (parseNumber r.value = some q ∧ 0 ≤ q ∧ q ≤ 999999) ∧
      ∃ t, parseNumber r.timestamp = some t ∧ truncQ t = ts ∧
        now - 7776000 ≤ ts ∧ ts ≤ now ∧ 0 < ts := by
  rw [validate_reading_data_eq_some, safe_convert_timestamp_eq_some,
    safe_convert_value_eq_some]
  tauto

/-- Counterexample to claim C6 as stated: at `now = 10^9` the raw reading
with float timestamp `now + 0.5` (a strictly-future timestamp, so the
claimed iff demands rejection) and value `10` IS accepted, because the
code truncates to `now` before the future check. -/
theorem c6_counterexample :
    (validate_reading_data 1000000000
      ⟨some (.rfloat (mkRat 2000000001 2)), some (.rint 10), none⟩).isSome = true ∧
    ¬ c6SpecAccepts 1000000000
      ⟨some (.rfloat (mkRat 2000000001 2)), some (.rint 10), none⟩ := by
  constructor
  · decide
  · rintro ⟨-, t, hpt, -, hle⟩
    have ht : t = mkRat 2000000001 2 := by
      have := hpt.symm
      simpa [parseNumber, pyFloat] using this
    rw [ht, Rat.mkRat_eq_div] at hle
    norm_num at hle

/-- The two outcomes of a periodic cleanup with positive retention: either
the store is replaced by the sorted filtered readings, or nothing changed
because the filter kept everything. -/
theorem periodic_cleanup_cases (historicalDays now : ℤ) (s : StoreState)
    (hN : 0 < historicalDays) :
    (periodic_storage_cleanup historicalDays now s).1.readings =
      List.insertionSort tsLE
        (s.readings.filter fun r =>
          decide (now - historicalDays * 86400 ≤ r.timestamp)) ∨
    ((periodic_storage_cleanup historicalDays now s).1.readings = s.readings ∧
      (s.readings.filter fun r =>
          decide (now - historicalDays * 86400 ≤ r.timestamp)) = s.readings) := by
  have hNe : historicalDays ≠ -1 := by omega
  rw [periodic_storage_cleanup, if_neg hNe, if_pos hN]
  by_cases hlen : (List.insertionSort tsLE
      (s.readings.filter fun r =>
        decide (now - historicalDays * 86400 ≤ r.timestamp))).length
      = s.readings.length
  · right
    have hfl : (s.readings.filter fun r =>
        decide (now - historicalDays * 86400 ≤ r.timestamp)) = s.readings := by
      refine (List.filter_sublist s.readings).eq_of_length ?_
      rw [List.length_insertionSort] at hlen
      exact hlen
    simp only [ne_eq, hlen, not_true_eq_false, if_false]
    exact ⟨trivial, hfl⟩
  · left
    simp only [ne_eq, hlen, not_false_eq_true, if_true]

/-- Claim C7: after a retention pass with a bounded positive
`historical_days = N` — the merge-time filter (whenever the merge had
valid new readings to trigger it) or the periodic cleanup — every stored
reading's timestamp is at least `now - N` days, and every reading (stored
or accepted-new) within the last `N` days is still present. -/
theorem c7_retention_bounds (historicalDays now : ℤ) (s : StoreState)
    (batch : List RawReading) (hN : 0 < historicalDays)
    (hmerge : validNewReadings now s.readings batch ≠ []) :
    (∀ r ∈ (updateHistoricalData historicalDays now s batch).1.readings,
        now - historicalDays * 86400 ≤ r.timestamp) ∧
    (∀ r, (r ∈ s.readings ∨ r ∈ validNewReadings now s.readings batch) →
        now - historicalDays * 86400 ≤ r.timestamp →
        r ∈ (updateHistoricalData historicalDays now s batch).1.readings) ∧
    (∀ r ∈ (periodic_storage_cleanup historicalDays now s).1.readings,
        now - historicalDays * 86400 ≤ r.timestamp) ∧
    (∀ r ∈ s.readings, now - historicalDays * 86400 ≤ r.timestamp →
        r ∈ (periodic_storage_cleanup historicalDays now s).1.readings) := by
  have hNe : historicalDays ≠ -1 := by omega
  have hb : batch.isEmpty = false := by
    rcases hbb : batch with _ | ⟨x, xs⟩
    · rw [hbb] at hmerge
      exact absurd rfl hmerge
    · rfl
  have hvne : (validNewReadings now s.readings batch).isEmpty = false := by
    rcases hV : validNewReadings now s.readings batch with _ | ⟨a, as⟩
    · exact absurd hV hmerge
    · rfl
  have hupd : (updateHistoricalData historicalDays now s batch).1.readings =
      (List.insertionSort tsLE
        (s.readings ++ validNewReadings now s.readings batch)).filter
        (fun r => decide (now - historicalDays * 86400 ≤ r.timestamp)) := by
    rw [updateHistoricalData]
    simp [hb, hvne, hNe]
  refine ⟨?_, ?_, ?_, ?_⟩
  · intro r hr
    rw [hupd] at hr
    exact of_decide_eq_true (List.mem_filter.mp hr).2
  · intro r hor hcut
    rw [hupd]
    refine List.mem_filter.mpr ⟨(List.mem_insertionSort tsLE).mpr ?_, decide_eq_true hcut⟩
    exact List.mem_append.mpr hor
  · intro r hr
    rcases periodic_cleanup_cases historicalDays now s hN with hcase | ⟨hcase, hfl⟩
    · rw [hcase, List.mem_insertionSort tsLE] at hr
      exact of_decide_eq_true (List.mem_filter.mp hr).2
    · rw [hcase] at hr
      exact of_decide_eq_true (List.filter_eq_self.mp hfl r hr)
  · intro r hr hcut
    rcases periodic_cleanup_cases historicalDays now s hN with hcase | ⟨hcase, _⟩
    · rw [hcase, List.mem_insertionSort tsLE]
      exact List.mem_filter.mpr ⟨hr, decide_eq_true hcut⟩
    · rw [hcase]
      exact hr

/-- Witness for C7: one-day retention at `now = 200000` over a store with
one stale and one fresh reading and a batch with one fresh reading. -/
theorem c7_witness :
    (∀ r ∈ (updateHistoricalData 1 200000 ⟨[⟨1, 5⟩, ⟨150000, 6⟩], some 150000⟩
        [⟨some (.rint 199999), some (.rfloat 7), none⟩]).1.readings,
      (200000 : ℤ) - 1 * 86400 ≤ r.timestamp) ∧
    (∀ r, (r ∈ ([⟨1, 5⟩, ⟨150000, 6⟩] : List Reading) ∨
        r ∈ validNewReadings 200000 [⟨1, 5⟩, ⟨150000, 6⟩]
          [⟨some (.rint 199999), some (.rfloat 7), none⟩]) →
      (200000 : ℤ) - 1 * 86400 ≤ r.timestamp →
      r ∈ (updateHistoricalData 1 200000 ⟨[⟨1, 5⟩, ⟨150000, 6⟩], some 150000⟩
        [⟨some (.rint 199999), some (.rfloat 7), none⟩]).1.readings) ∧
    (∀ r ∈ (periodic_storage_cleanup 1 200000
        ⟨[⟨1, 5⟩, ⟨150000, 6⟩], some 150000⟩).1.readings,
      (200000 : ℤ) - 1 * 86400 ≤ r.timestamp) ∧
    (∀ r ∈ ([⟨1, 5⟩, ⟨150000, 6⟩] : List Reading),
      (200000 : ℤ) - 1 * 86400 ≤ r.timestamp →
      r ∈ (periodic_storage_cleanup 1 200000
        ⟨[⟨1, 5⟩, ⟨150000, 6⟩], some 150000⟩).1.readings) :=
  c7_retention_bounds 1 200000 ⟨[⟨1, 5⟩, ⟨150000, 6⟩], some 150000⟩
    [⟨some (.rint 199999), some (.rfloat 7), none⟩] (by decide) (by decide)

/-- Membership in the merge's validate-and-filter output. -/
theorem mem_validNewReadings {now : ℤ} {existing : List Reading}
    {batch : List RawReading} {v : Reading} :
    v ∈ validNewReadings now existing batch ↔
      ∃ raw ∈ batch, validate_reading_data now raw = some v ∧
        hasTs existing v.timestamp = false := by
  unfold validNewReadings
  rw [List.mem_filterMap]
  constructor
  · rintro ⟨raw, hraw, hf⟩
    cases hval : validate_reading_data now raw with
    | none => rw [hval] at hf; cases hf
    | some w =>
      rw [hval] at hf
      by_cases hblk : hasTs existing w.timestamp = true
      · simp [hblk] at hf
      · simp [hblk] at hf
        subst hf
        exact ⟨raw, hraw, hval, Bool.eq_false_iff.mpr hblk⟩
  · rintro ⟨raw, hraw, hval, hblk⟩
    refine ⟨raw, hraw, ?_⟩
    rw [hval]
    simp [hblk]

/-- The `existing_timestamps` membership test, unfolded. -/
theorem hasTs_iff {l : List Reading} {t : ℤ} :
    hasTs l t = true ↔ ∃ e ∈ l, e.timestamp = t := by
  simp [hasTs, List.any_eq_true]

/-- Filtering a stable sort of `good ++ bad` back down when `good` is
already sorted and the predicate keeps exactly `good`: insertion sort keeps
`good` as a sublist (stability), and the filtered result is a permutation
of `good` of the same length, hence equal. -/
theorem filter_insertionSort_append (good bad : List Reading) (p : Reading → Bool)
    (hs : good.Sorted tsLE)
    (hgood : ∀ x ∈ good, p x = true) (hbad : ∀ x ∈ bad, p x = false) :
    (List.insertionSort tsLE (good ++ bad)).filter p = good := by
  have hsub : good.Sublist (List.insertionSort tsLE (good ++ bad)) :=
    List.sublist_insertionSort hs (List.sublist_append_left good bad)
  have hgf : good.filter p = good := List.filter_eq_self.mpr hgood
  have h2 : good.Sublist ((List.insertionSort tsLE (good ++ bad)).filter p) := by
    have hsf := hsub.filter p
    rwa [hgf] at hsf
  have hbf : bad.filter p = [] :=
    List.filter_eq_nil_iff.mpr fun a ha => by simp [hbad a ha]
  have hlen : ((List.insertionSort tsLE (good ++ bad)).filter p).length =
      good.length := by
    rw [((List.perm_insertionSort tsLE (good ++ bad)).filter p).length_eq,
      List.filter_append, hgf, hbf, List.append_nil]
  exact (h2.eq_of_length hlen.symm).symm

/-- A merge into a store whose readings are sorted, entirely inside the
retention window, and with a cached last timestamp consistent with the
list tail, is a no-op on the state whenever every valid new batch reading
falls outside the retention window. -/
theorem update_on_clean_store (historicalDays now : ℤ) (st : StoreState)
    (batch : List RawReading) (hNe : historicalDays ≠ -1)
    (key : ∀ v ∈ validNewReadings now st.readings batch,
        decide (now - historicalDays * 86400 ≤ v.timestamp) = false)
    (hsort : st.readings.Sorted tsLE)
    (hgood : ∀ x ∈ st.readings,
        decide (now - historicalDays * 86400 ≤ x.timestamp) = true)
    (hlast : ∀ r, st.readings.getLast? = some r → st.lastTs = some r.timestamp) :
    (updateHistoricalData historicalDays now st batch).1 = st := by
  cases hbe : batch.isEmpty
  case true => simp [updateHistoricalData, hbe]
  cases hV2e : (validNewReadings now st.readings batch).isEmpty
  case true => simp [updateHistoricalData, hbe, hV2e]
  have hred : (updateHistoricalData historicalDays now st batch).1 =
      ⟨(List.insertionSort tsLE
          (st.readings ++ validNewReadings now st.readings batch)).filter
          (fun r => decide (now - historicalDays * 86400 ≤ r.timestamp)),
        match ((List.insertionSort tsLE
            (st.readings ++ validNewReadings now st.readings batch)).filter
            (fun r => decide (now - historicalDays * 86400 ≤ r.timestamp))).getLast? with
        | some r => some r.timestamp
        | none => st.lastTs⟩ := by
    simp [updateHistoricalData, hbe, hV2e, hNe]
  rw [hred,
    filter_insertionSort_append st.readings
      (validNewReadings now st.readings batch) _ hsort hgood key]
  cases hgl : st.readings.getLast? with
  | some r =>
    simp only [hgl]
    rw [← hlast r hgl]
  | none =>
    simp only [hgl]

/-- Claim C9: merging the same batch twice, the second merge at the same
`now` (and the same retention configuration), produces exactly the same
store state — same readings, in the same order, and the same cached last
timestamp — as merging it once. -/
theorem c9_merge_idempotent (historicalDays now : ℤ) (s : StoreState)
    (batch : List RawReading) :
    (updateHistoricalData historicalDays now
        (updateHistoricalData historicalDays now s batch).1 batch).1 =
      (updateHistoricalData historicalDays now s batch).1 := by
  cases hbe : batch.isEmpty
  case true => simp [updateHistoricalData, hbe]
  cases hV1e : (validNewReadings now s.readings batch).isEmpty
  case true => simp [updateHistoricalData, hbe, hV1e]
  by_cases hNe : historicalDays = -1
  · -- unlimited retention: the first merge keeps every timestamp that
    -- blocked or entered it, so the second merge accepts nothing
    have hupd1 : (updateHistoricalData historicalDays now s batch).1 =
        ⟨List.insertionSort tsLE
            (s.readings ++ validNewReadings now s.readings batch),
          match (List.insertionSort tsLE
              (s.readings ++ validNewReadings now s.readings batch)).getLast? with
          | some r => some r.timestamp
          | none => s.lastTs⟩ := by
      simp [updateHistoricalData, hbe, hV1e, hNe]
    have hV2 : validNewReadings now
        (List.insertionSort tsLE
          (s.readings ++ validNewReadings now s.readings batch)) batch = [] := by
      rw [validNewReadings, List.filterMap_eq_nil_iff]
      intro raw hraw
      cases hval : validate_reading_data now raw with
      | none => rfl
      | some v =>
        have hmem : hasTs (List.insertionSort tsLE
            (s.readings ++ validNewReadings now s.readings batch)) v.timestamp
            = true := by
          rw [hasTs_iff]
          by_cases hE : hasTs s.readings v.timestamp = true
          · obtain ⟨e, he, het⟩ := hasTs_iff.mp hE
            exact ⟨e, (List.mem_insertionSort tsLE).mpr
              (List.mem_append_left _ he), het⟩
          · have hvV1 : v ∈ validNewReadings now s.readings batch :=
              mem_validNewReadings.mpr ⟨raw, hraw, hval, Bool.eq_false_iff.mpr hE⟩
            exact ⟨v, (List.mem_insertionSort tsLE).mpr
              (List.mem_append_right _ hvV1), rfl⟩
        simp [hmem]
    rw [hupd1]
    have hV2e : (validNewReadings now
        (List.insertionSort tsLE
          (s.readings ++ validNewReadings now s.readings batch)) batch).isEmpty
        = true := by rw [hV2]; rfl
    simp [updateHistoricalData, hbe, hV2e]
  · -- bounded retention: the readings of the first merge's result are the
    -- retention-filtered sort; any reading the second merge would accept
    -- must have been dropped by that filter, so it is dropped again
    have hupd1 : (updateHistoricalData historicalDays now s batch).1 =
        ⟨(List.insertionSort tsLE
            (s.readings ++ validNewReadings now s.readings batch)).filter
            (fun r => decide (now - historicalDays * 86400 ≤ r.timestamp)),
          match ((List.insertionSort tsLE
              (s.readings ++ validNewReadings now s.readings batch)).filter
              (fun r => decide (now - historicalDays * 86400 ≤ r.timestamp))).getLast? with
          | some r => some r.timestamp
          | none => s.lastTs⟩ := by
      simp [updateHistoricalData, hbe, hV1e, hNe]
    rw [hupd1]
    refine update_on_clean_store historicalDays now _ batch hNe ?_ ?_ ?_ ?_
    · intro v hv
      obtain ⟨raw, hraw, hval, hblk⟩ := mem_validNewReadings.mp hv
      by_contra hpv
      have hpv' : decide (now - historicalDays * 86400 ≤ v.timestamp) = true := by
        rwa [Bool.not_eq_false] at hpv
      by_cases hE : hasTs s.readings v.timestamp = true
      · obtain ⟨e, he, het⟩ := hasTs_iff.mp hE
        have heC : e ∈ List.insertionSort tsLE
            (s.readings ++ validNewReadings now s.readings batch) :=
          (List.mem_insertionSort tsLE).mpr (List.mem_append_left _ he)
        have hpe : decide (now - historicalDays * 86400 ≤ e.timestamp) = true := by
          rw [het]
          exact hpv'
        have heR : e ∈ (List.insertionSort tsLE
            (s.readings ++ validNewReadings now s.readings batch)).filter
            (fun r => decide (now - historicalDays * 86400 ≤ r.timestamp)) :=
          List.mem_filter.mpr ⟨heC, hpe⟩
        have hcontra := hasTs_iff.mpr ⟨e, heR, het⟩
        rw [hcontra] at hblk
        cases hblk
      · have hvV1 : v ∈ validNewReadings now s.readings batch :=
          mem_validNewReadings.mpr ⟨raw, hraw, hval, Bool.eq_false_iff.mpr hE⟩
        have hvC : v ∈ List.insertionSort tsLE
            (s.readings ++ validNewReadings now s.readings batch) :=
          (List.mem_insertionSort tsLE).mpr (List.mem_append_right _ hvV1)
        have hvR : v ∈ (List.insertionSort tsLE
            (s.readings ++ validNewReadings now s.readings batch)).filter
            (fun r => decide (now - historicalDays * 86400 ≤ r.timestamp)) :=
          List.mem_filter.mpr ⟨hvC, hpv'⟩
        have hcontra := hasTs_iff.mpr ⟨v, hvR, rfl⟩
        rw [hcontra] at hblk
        cases hblk
    · exact List.Sorted.filter _
        (List.sorted_insertionSort tsLE
          (s.readings ++ validNewReadings now s.readings batch))
    · exact fun x hx => (List.mem_filter.mp hx).2
    · intro r hgl
      simp only [hgl]
